import Mathlib

/-!
Verification of the "this-weekend" weekend-planner repository.

The development shallowly embeds the two relevant source files:

* `api/weekend-plan.ts` — the HTTP handler: method/body/form guards, the
  prompt payload sent to the external generator (its `userInput` block), and
  the response path that decodes the generator's raw text with `JSON.parse`
  and echoes the decoded value back with `JSON.stringify`.
* `src/App.tsx` (the revision bundled with the API file) — the client
  orchestration `generateWeekendItinerary`: a single upstream attempt,
  falling back to the local template generator on any failure, plus the
  template generator itself.

The `JSON.parse` / `JSON.stringify` runtime builtins that the handler calls
at its boundary are modelled concretely by an executable JSON codec over the
fragment of JSON the program exchanges (strings, arrays, objects; numbers,
booleans, null and inter-token whitespace do not occur in any value the
program serializes). The codec's round-trip is proved, so claims about the
parse/serialize boundary are settled against a real parser, not an oracle.
-/

namespace ThisWeekend

/-! ## JSON values

The fragment of JSON exchanged by the program: every field of the itinerary
schema is a string, an array or an object, so those three constructors
suffice to represent each serialized value exactly. -/

/-- A JSON value of the fragment the program exchanges. -/
inductive Json where
  | str (s : String)
  | arr (elems : List Json)
  | obj (fields : List (String × Json))

/-- Escape one character the way `JSON.stringify` does for the characters
that occur in the program's values (quote, backslash and the common control
characters; other characters print verbatim). -/
def escapeChar (c : Char) : List Char :=
  if c = '"' then ['\\', '"']
  else if c = '\\' then ['\\', '\\']
  else if c = '\n' then ['\\', 'n']
  else if c = '\t' then ['\\', 't']
  else if c = '\r' then ['\\', 'r']
  else [c]

/-- Escape a whole character list. -/
def escapeChars : List Char → List Char
  | [] => []
  | c :: cs => escapeChar c ++ escapeChars cs

mutual
/-- Print a JSON value the way `JSON.stringify` renders it: minimal, with no
inter-token whitespace. -/
def printJson : Json → List Char
  | .str s => '"' :: escapeChars s.data ++ ['"']
  | .arr xs => '[' :: printElems xs ++ [']']
  | .obj fs => '\x7b' :: printFields fs ++ ['\x7d']
/-- Print the elements of an array, comma-separated. -/
def printElems : List Json → List Char
  | [] => []
  | x :: xs => printJson x ++ printElemsSep xs
/-- Print the remaining elements of an array, each preceded by a comma. -/
def printElemsSep : List Json → List Char
  | [] => []
  | x :: xs => ',' :: printJson x ++ printElemsSep xs
/-- Print the fields of an object, comma-separated. -/
def printFields : List (String × Json) → List Char
  | [] => []
  | (k, v) :: fs => '"' :: escapeChars k.data ++ '"' :: ':' :: printJson v ++ printFieldsSep fs
/-- Print the remaining fields of an object, each preceded by a comma. -/
def printFieldsSep : List (String × Json) → List Char
  | [] => []
  | (k, v) :: fs =>
    ',' :: '"' :: escapeChars k.data ++ '"' :: ':' :: printJson v ++ printFieldsSep fs
end

/-- Model of `JSON.stringify` on the program's values. -/
def stringifyJson (j : Json) : String := String.mk (printJson j)

/-- Invert `escapeChar` on the character after a backslash. -/
def unescapeChar (c : Char) : Char :=
  if c = 'n' then '\n'
  else if c = 't' then '\t'
  else if c = 'r' then '\r'
  else c

/-- Parse the body of a JSON string after its opening quote, returning the
decoded characters and the remainder after the closing quote. -/
def parseStringBody : List Char → Option (List Char × List Char)
  | [] => none
  | c :: rest =>
    if c = '"' then some ([], rest)
    else if c = '\\' then
      match rest with
      | [] => none
      | e :: rest2 => (parseStringBody rest2).map (fun p => (unescapeChar e :: p.1, p.2))
    else (parseStringBody rest).map (fun p => (c :: p.1, p.2))

mutual
/-- Parse one JSON value from the head of the input. Recursion is structural
on the fuel, which the top-level entry sets to the input length — enough for
any value the input can spell, by `sizeJson_le_printJson_length`. -/
def parseJsonVal : Nat → List Char → Option (Json × List Char)
  | fuel, input =>
    match input with
    | [] => none
    | c :: rest =>
      if c = '"' then
        (parseStringBody rest).map (fun p => (Json.str (String.mk p.1), p.2))
      else if c = '[' then
        match rest with
        | [] => none
        | c2 :: rest2 =>
          if c2 = ']' then some (Json.arr [], rest2)
          else
            match fuel with
            | 0 => none
            | fuel' + 1 =>
              match parseJsonVal fuel' (c2 :: rest2) with
              | none => none
              | some (x, r) =>
                match parseArrRest fuel' r with
                | none => none
                | some (xs, r2) => some (Json.arr (x :: xs), r2)
      else if c = '\x7b' then
        match rest with
        | [] => none
        | c2 :: rest2 =>
          if c2 = '\x7d' then some (Json.obj [], rest2)
          else
            match fuel with
            | 0 => none
            | fuel' + 1 =>
              match parseObjField fuel' (c2 :: rest2) with
              | none => none
              | some (kv, r) =>
                match parseObjRest fuel' r with
                | none => none
                | some (fs, r2) => some (Json.obj (kv :: fs), r2)
      else none
/-- Parse the rest of an array after its first element: either the closing
bracket, or a comma followed by a further element and the rest. -/
def parseArrRest : Nat → List Char → Option (List Json × List Char)
  | fuel, input =>
    match input with
    | [] => none
    | c :: rest =>
      if c = ']' then some ([], rest)
      else if c = ',' then
        match fuel with
        | 0 => none
        | fuel' + 1 =>
          match parseJsonVal fuel' rest with
          | none => none
          | some (x, r) =>
            match parseArrRest fuel' r with
            | none => none
            | some (xs, r2) => some (x :: xs, r2)
      else none
/-- Parse one `"key":value` field of an object. -/
def parseObjField : Nat → List Char → Option ((String × Json) × List Char)
  | fuel, input =>
    match input with
    | [] => none
    | c :: rest =>
      if c = '"' then
        match parseStringBody rest with
        | none => none
        | some (ks, r1) =>
          match r1 with
          | [] => none
          | c2 :: r2 =>
            if c2 = ':' then
              match fuel with
              | 0 => none
              | fuel' + 1 =>
                (parseJsonVal fuel' r2).map (fun p => ((String.mk ks, p.1), p.2))
            else none
      else none
/-- Parse the rest of an object after its first field: either the closing
brace, or a comma followed by a further field and the rest. -/
def parseObjRest : Nat → List Char → Option (List (String × Json) × List Char)
  | fuel, input =>
    match input with
    | [] => none
    | c :: rest =>
      if c = '\x7d' then some ([], rest)
      else if c = ',' then
        match fuel with
        | 0 => none
        | fuel' + 1 =>
          match parseObjField fuel' rest with
          | none => none
          | some (kv, r) =>
            match parseObjRest fuel' r with
            | none => none
            | some (fs, r2) => some (kv :: fs, r2)
      else none
end

/-- Model of `JSON.parse` on the program's fragment: decode one value and
require the input to be fully consumed; anything else fails. -/
def parseJson (s : String) : Option Json :=
  match parseJsonVal s.data.length s.data with
  | some (j, []) => some j
  | _ => none

/-! ## Round-trip of the JSON codec

`parseJson (stringifyJson j) = some j` for every value of the fragment. The
fuel argument is bounded by a size measure that mirrors how often the parser
recurses; the printed form is always at least that long. -/

mutual
/-- Fuel the parser needs for a value (number of fuel-consuming calls). -/
def sizeJson : Json → Nat
  | .str _ => 0
  | .arr [] => 0
  | .arr (x :: xs) => 1 + sizeJson x + sizeElems xs
  | .obj [] => 0
  | .obj (f :: fs) => 2 + sizeJson f.2 + sizeFields fs
/-- Fuel the parser needs for an array tail. -/
def sizeElems : List Json → Nat
  | [] => 0
  | x :: xs => 1 + sizeJson x + sizeElems xs
/-- Fuel the parser needs for an object tail. -/
def sizeFields : List (String × Json) → Nat
  | [] => 0
  | f :: fs => 2 + sizeJson f.2 + sizeFields fs
end

mutual
theorem sizeJson_le_printJson_length (j : Json) : sizeJson j ≤ (printJson j).length := by
  cases j with
  | str s => simp [sizeJson]
  | arr xs =>
    cases xs with
    | nil => simp [sizeJson]
    | cons x xs =>
      have h1 := sizeJson_le_printJson_length x
      have h2 := sizeElems_le_printElemsSep_length xs
      simp only [sizeJson, printJson, printElems, List.length_cons, List.length_append]
      omega
  | obj fs =>
    cases fs with
    | nil => simp [sizeJson]
    | cons f fs =>
      obtain ⟨k, v⟩ := f
      have h1 := sizeJson_le_printJson_length v
      have h2 := sizeFields_le_printFieldsSep_length fs
      simp only [sizeJson, printJson, printFields, List.length_cons, List.length_append]
      omega
theorem sizeElems_le_printElemsSep_length (xs : List Json) :
    sizeElems xs ≤ (printElemsSep xs).length := by
  cases xs with
  | nil => simp [sizeElems, printElemsSep]
  | cons x xs =>
    have h1 := sizeJson_le_printJson_length x
    have h2 := sizeElems_le_printElemsSep_length xs
    simp only [sizeElems, printElemsSep, List.length_cons, List.length_append]
    omega
theorem sizeFields_le_printFieldsSep_length (fs : List (String × Json)) :
    sizeFields fs ≤ (printFieldsSep fs).length := by
  cases fs with
  | nil => simp [sizeFields, printFieldsSep]
  | cons f fs =>
    obtain ⟨k, v⟩ := f
    have h1 := sizeJson_le_printJson_length v
    have h2 := sizeFields_le_printFieldsSep_length fs
    simp only [sizeFields, printFieldsSep, List.length_cons, List.length_append]
    omega
end

theorem unescapeChar_escape_quote : unescapeChar '"' = '"' := rfl

/-- Parsing a string body undoes the escaping introduced by the printer. -/
theorem parseStringBody_escapeChars (cs : List Char) (rest : List Char) :
    parseStringBody (escapeChars cs ++ '"' :: rest) = some (cs, rest) := by
  induction cs with
  | nil =>
    rw [show escapeChars [] ++ '"' :: rest = '"' :: rest from rfl, parseStringBody.eq_def]
    simp
  | cons c cs ih =>
    by_cases h1 : c = '"'
    · subst h1
      rw [show escapeChars ('"' :: cs) ++ '"' :: rest
            = '\\' :: '"' :: (escapeChars cs ++ '"' :: rest) from by
          simp [escapeChars, escapeChar], parseStringBody.eq_def]
      simp [ih, unescapeChar]
    · by_cases h2 : c = '\\'
      · subst h2
        rw [show escapeChars ('\\' :: cs) ++ '"' :: rest
              = '\\' :: '\\' :: (escapeChars cs ++ '"' :: rest) from by
            simp [escapeChars, escapeChar], parseStringBody.eq_def]
        simp [ih, unescapeChar]
      · by_cases h3 : c = '\n'
        · subst h3
          rw [show escapeChars ('\n' :: cs) ++ '"' :: rest
                = '\\' :: 'n' :: (escapeChars cs ++ '"' :: rest) from by
              simp [escapeChars, escapeChar], parseStringBody.eq_def]
          simp [ih, unescapeChar]
        · by_cases h4 : c = '\t'
          · subst h4
            rw [show escapeChars ('\t' :: cs) ++ '"' :: rest
                  = '\\' :: 't' :: (escapeChars cs ++ '"' :: rest) from by
                simp [escapeChars, escapeChar], parseStringBody.eq_def]
            simp [ih, unescapeChar]
          · by_cases h5 : c = '\r'
            · subst h5
              rw [show escapeChars ('\r' :: cs) ++ '"' :: rest
                    = '\\' :: 'r' :: (escapeChars cs ++ '"' :: rest) from by
                  simp [escapeChars, escapeChar], parseStringBody.eq_def]
              simp [ih, unescapeChar]
            · rw [show escapeChars (c :: cs) ++ '"' :: rest
                    = c :: (escapeChars cs ++ '"' :: rest) from by
                  simp [escapeChars, escapeChar, h1, h2, h3, h4, h5], parseStringBody.eq_def]
              simp [ih, h1, h2]

/-- Every printed value starts with a quote, bracket or brace — never with a
closing bracket, so the parser's nonempty-array branch is taken correctly. -/
theorem printJson_head (j : Json) :
    ∃ c t, printJson j = c :: t ∧ c ≠ ']' := by
  cases j with
  | str s => exact ⟨'"', _, rfl, by decide⟩
  | arr xs => exact ⟨'[', _, rfl, by decide⟩
  | obj fs => exact ⟨'\x7b', _, rfl, by decide⟩

/-- Rebuilding a string from its characters gives the string back. -/
theorem string_mk_of_chars (s : String) : String.mk s.data = s := by
  obtain ⟨l⟩ := s
  rfl

/-- Parsing a printed string value succeeds at any fuel. -/
theorem parseJsonVal_print_str (s : String) (fuel : Nat) (rest : List Char) :
    parseJsonVal fuel (printJson (.str s) ++ rest) = some (.str s, rest) := by
  rw [show printJson (.str s) ++ rest = '"' :: (escapeChars s.data ++ '"' :: rest) from by
        simp [printJson],
      parseJsonVal.eq_def]
  simp [parseStringBody_escapeChars, string_mk_of_chars]

/-- Parsing a printed empty array succeeds at any fuel. -/
theorem parseJsonVal_print_arr_nil (fuel : Nat) (rest : List Char) :
    parseJsonVal fuel (printJson (.arr []) ++ rest) = some (.arr [], rest) := by
  rw [show printJson (.arr []) ++ rest = '[' :: ']' :: rest from by
        simp [printJson, printElems],
      parseJsonVal.eq_def]
  simp

/-- Parsing a printed empty object succeeds at any fuel. -/
theorem parseJsonVal_print_obj_nil (fuel : Nat) (rest : List Char) :
    parseJsonVal fuel (printJson (.obj []) ++ rest) = some (.obj [], rest) := by
  rw [show printJson (.obj []) ++ rest = '\x7b' :: '\x7d' :: rest from by
        simp [printJson, printFields],
      parseJsonVal.eq_def]
  simp

mutual
/-- Round-trip of one value: parsing its printed form with enough fuel
returns the value and leaves the remainder untouched. -/
theorem parseJsonVal_print (j : Json) : ∀ fuel rest, sizeJson j ≤ fuel →
    parseJsonVal fuel (printJson j ++ rest) = some (j, rest) := by
  cases j with
  | str s => exact fun fuel rest _ => parseJsonVal_print_str s fuel rest
  | arr xs =>
    cases xs with
    | nil => exact fun fuel rest _ => parseJsonVal_print_arr_nil fuel rest
    | cons x xs =>
      intro fuel rest h
      obtain ⟨c, t, hx, hc⟩ := printJson_head x
      obtain ⟨f, rfl⟩ : ∃ f, fuel = f + 1 := by
        cases fuel with
        | zero => exact absurd h (by simp [sizeJson])
        | succ f => exact ⟨f, rfl⟩
      have hszx : sizeJson x ≤ f := by simp only [sizeJson] at h; omega
      have hszxs : sizeElems xs ≤ f := by simp only [sizeJson] at h; omega
      rw [show printJson (.arr (x :: xs)) ++ rest
            = '[' :: c :: (t ++ (printElemsSep xs ++ ']' :: rest)) from by
          simp [printJson, printElems, hx],
        parseJsonVal.eq_def]
      have hval : parseJsonVal f (c :: (t ++ (printElemsSep xs ++ ']' :: rest)))
          = some (x, printElemsSep xs ++ ']' :: rest) := by
        rw [show c :: (t ++ (printElemsSep xs ++ ']' :: rest))
              = printJson x ++ (printElemsSep xs ++ ']' :: rest) from by simp [hx]]
        exact parseJsonVal_print x f _ hszx
      simp [hc, hval, parseArrRest_print xs f rest hszxs]
  | obj fs =>
    cases fs with
    | nil => exact fun fuel rest _ => parseJsonVal_print_obj_nil fuel rest
    | cons kv fs =>
      obtain ⟨k, v⟩ := kv
      intro fuel rest h
      obtain ⟨f, rfl⟩ : ∃ f, fuel = f + 1 := by
        cases fuel with
        | zero => exact absurd h (by simp [sizeJson])
        | succ f => exact ⟨f, rfl⟩
      have hszv : 1 + sizeJson v ≤ f := by simp only [sizeJson] at h; omega
      have hszfs : sizeFields fs ≤ f := by simp only [sizeJson] at h; omega
      rw [show printJson (.obj ((k, v) :: fs)) ++ rest
            = '\x7b' :: '"'
                :: (escapeChars k.data ++ '"' :: ':'
                      :: (printJson v ++ (printFieldsSep fs ++ '\x7d' :: rest))) from by
          simp [printJson, printFields],
        parseJsonVal.eq_def]
      have hfld := parseObjField_print k v f (printFieldsSep fs ++ '\x7d' :: rest) hszv
      simp [hfld, parseObjRest_print fs f rest hszfs]
termination_by sizeJson j
decreasing_by
  all_goals try simp only [sizeJson, sizeElems, sizeFields]
  all_goals omega
/-- Round-trip of an array tail at sufficient fuel. -/
theorem parseArrRest_print (xs : List Json) : ∀ fuel rest, sizeElems xs ≤ fuel →
    parseArrRest fuel (printElemsSep xs ++ ']' :: rest) = some (xs, rest) := by
  cases xs with
  | nil =>
    intro fuel rest _
    rw [show printElemsSep [] ++ ']' :: rest = ']' :: rest from by simp [printElemsSep],
      parseArrRest.eq_def]
    simp
  | cons x xs =>
    intro fuel rest h
    obtain ⟨f, rfl⟩ : ∃ f, fuel = f + 1 := by
      cases fuel with
      | zero => exact absurd h (by simp [sizeElems])
      | succ f => exact ⟨f, rfl⟩
    have hszx : sizeJson x ≤ f := by simp only [sizeElems] at h; omega
    have hszxs : sizeElems xs ≤ f := by simp only [sizeElems] at h; omega
    rw [show printElemsSep (x :: xs) ++ ']' :: rest
          = ',' :: (printJson x ++ (printElemsSep xs ++ ']' :: rest)) from by
        simp [printElemsSep],
      parseArrRest.eq_def]
    simp [parseJsonVal_print x f _ hszx, parseArrRest_print xs f rest hszxs]
termination_by sizeElems xs
decreasing_by
  all_goals try simp only [sizeJson, sizeElems, sizeFields]
  all_goals omega
/-- Round-trip of one printed object field at sufficient fuel. -/
theorem parseObjField_print (k : String) (v : Json) : ∀ fuel rest, 1 + sizeJson v ≤ fuel →
    parseObjField fuel ('"' :: (escapeChars k.data ++ '"' :: ':' :: (printJson v ++ rest)))
      = some ((k, v), rest) := by
  intro fuel rest h
  obtain ⟨f, rfl⟩ : ∃ f, fuel = f + 1 := by
    cases fuel with
    | zero => exact absurd h (by omega)
    | succ f => exact ⟨f, rfl⟩
  have hszv : sizeJson v ≤ f := by omega
  rw [parseObjField.eq_def]
  simp [parseStringBody_escapeChars, parseJsonVal_print v f rest hszv, string_mk_of_chars]
termination_by 1 + sizeJson v
decreasing_by
  all_goals omega
/-- Round-trip of an object tail at sufficient fuel. -/
theorem parseObjRest_print (fs : List (String × Json)) : ∀ fuel rest, sizeFields fs ≤ fuel →
    parseObjRest fuel (printFieldsSep fs ++ '\x7d' :: rest) = some (fs, rest) := by
  cases fs with
  | nil =>
    intro fuel rest _
    rw [show printFieldsSep [] ++ '\x7d' :: rest = '\x7d' :: rest from by simp [printFieldsSep],
      parseObjRest.eq_def]
    simp
  | cons kv fs =>
    obtain ⟨k, v⟩ := kv
    intro fuel rest h
    obtain ⟨f, rfl⟩ : ∃ f, fuel = f + 1 := by
      cases fuel with
      | zero => exact absurd h (by simp [sizeFields])
      | succ f => exact ⟨f, rfl⟩
    have hszv : 1 + sizeJson v ≤ f := by simp only [sizeFields] at h; omega
    have hszfs : sizeFields fs ≤ f := by simp only [sizeFields] at h; omega
    rw [show printFieldsSep ((k, v) :: fs) ++ '\x7d' :: rest
          = ',' :: ('"' :: (escapeChars k.data ++ '"' :: ':'
              :: (printJson v ++ (printFieldsSep fs ++ '\x7d' :: rest)))) from by
        simp [printFieldsSep],
      parseObjRest.eq_def]
    simp [parseObjField_print k v f _ hszv, parseObjRest_print fs f rest hszfs]
termination_by sizeFields fs
decreasing_by
  all_goals try simp only [sizeJson, sizeElems, sizeFields]
  all_goals omega
end

/-- The codec round-trip: parsing a stringified value returns the value. -/
theorem parseJson_stringifyJson (j : Json) : parseJson (stringifyJson j) = some j := by
  have h := parseJsonVal_print j (printJson j).length [] (sizeJson_le_printJson_length j)
  rw [List.append_nil] at h
  show (match parseJsonVal (String.mk (printJson j)).data.length
          (String.mk (printJson j)).data with
        | some (j, []) => some j
        | _ => none) = some j
  rw [show (String.mk (printJson j)).data = printJson j from rfl, h]

/-! ## The data model

Each type mirrors the TypeScript declarations at the top of
`api/weekend-plan.ts` (identical in `src/App.tsx`). The sources model an
unset questionnaire field as the empty string inside the string-union types;
here each enumeration carries an explicit `unset` constructor that renders
as `""`. -/

/-- The `GroupType` union: `"solo" | "couple" | "friends" | "family" | ""`. -/
inductive GroupType where
  | solo | couple | friends | family | unset
deriving DecidableEq

/-- The `MoodType` union. -/
inductive MoodType where
  | chill | foodie | explore | cultural | outdoors | nightlife | unset
deriving DecidableEq

/-- The `BudgetLevel` union: the three euro-sign tiers or the unset string. -/
inductive BudgetLevel where
  | low | medium | high | unset
deriving DecidableEq

/-- The `DaysOption` union: `"sat" | "sun" | "both" | "half-day" | ""`. -/
inductive DaysOption where
  | sat | sun | both | halfDay | unset
deriving DecidableEq

/-- String carried by a `GroupType` value in the source. -/
def groupString : GroupType → String
  | .solo => "solo"
  | .couple => "couple"
  | .friends => "friends"
  | .family => "family"
  | .unset => ""

/-- String carried by a `MoodType` value in the source. -/
def moodString : MoodType → String
  | .chill => "chill"
  | .foodie => "foodie"
  | .explore => "explore"
  | .cultural => "cultural"
  | .outdoors => "outdoors"
  | .nightlife => "nightlife"
  | .unset => ""

/-- String carried by a `BudgetLevel` value in the source. -/
def budgetString : BudgetLevel → String
  | .low => "€"
  | .medium => "€€"
  | .high => "€€€"
  | .unset => ""

/-- String carried by a `DaysOption` value in the source. -/
def daysString : DaysOption → String
  | .sat => "sat"
  | .sun => "sun"
  | .both => "both"
  | .halfDay => "half-day"
  | .unset => ""

/-- The `WeekendFormData` interface. -/
structure WeekendFormData where
  city : String
  group : GroupType
  mood : MoodType
  budget : BudgetLevel
  days : DaysOption
deriving DecidableEq

/-- The `ActivityKind` union. -/
inductive ActivityKind where
  | food | activity | coffee | nightlife
deriving DecidableEq

/-- String carried by an `ActivityKind` value in the source. -/
def kindString : ActivityKind → String
  | .food => "food"
  | .activity => "activity"
  | .coffee => "coffee"
  | .nightlife => "nightlife"

/-- The `ItineraryActivity` interface; `area` and `priceLevel` are the two
optional fields. -/
structure ItineraryActivity where
  time : String
  title : String
  kind : ActivityKind
  description : String
  area : Option String
  priceLevel : Option BudgetLevel
deriving DecidableEq

/-- The `ItineraryDay` interface. -/
structure ItineraryDay where
  label : String
  summary : String
  activities : List ItineraryActivity
deriving DecidableEq

/-- The `WeekendItinerary` interface. -/
structure WeekendItinerary where
  city : String
  days : List ItineraryDay
deriving DecidableEq

/-! ## Serialization of typed itineraries

How `JSON.stringify` renders a typed itinerary value, field for field in
declaration order; an optional field that is absent is omitted from the
object, exactly as `JSON.stringify` omits `undefined` properties. -/

/-- JSON form of one activity. -/
def encodeActivity (a : ItineraryActivity) : Json :=
  Json.obj
    ([("time", Json.str a.time),
      ("title", Json.str a.title),
      ("kind", Json.str (kindString a.kind)),
      ("description", Json.str a.description)]
     ++ (match a.area with
         | some s => [("area", Json.str s)]
         | none => [])
     ++ (match a.priceLevel with
         | some b => [("priceLevel", Json.str (budgetString b))]
         | none => []))

/-- JSON form of one day. -/
def encodeDay (d : ItineraryDay) : Json :=
  Json.obj
    [("label", Json.str d.label),
     ("summary", Json.str d.summary),
     ("activities", Json.arr (d.activities.map encodeActivity))]

/-- JSON form of a whole itinerary. -/
def encodeItinerary (it : WeekendItinerary) : Json :=
  Json.obj
    [("city", Json.str it.city),
     ("days", Json.arr (it.days.map encodeDay))]

/-- JSON form of the `WeekendPlanResponse` wrapper `(itinerary : ...)` that
the generator is asked to return and the handler echoes back. -/
def encodeWeekendPlanResponse (it : WeekendItinerary) : Json :=
  Json.obj [("itinerary", encodeItinerary it)]

/-! ## The client orchestration and its fallback generator

From `generateWeekendItinerary` in `src/App.tsx` (lines 285–405 of the
bundled revision): one `fetch` attempt against `/api/weekend-plan`; the
upstream itinerary is returned only when the response is ok, its body
decodes, and `data?.itinerary` is present; every other outcome falls
through to the local template generator. -/

/-- The first (primary) day of the fallback template, translated field by
field from the object literal in the source. -/
def fallbackFirstDay (form : WeekendFormData) : ItineraryDay where
  label := if form.days = .sun then "Sunday" else "Saturday"
  summary :=
    if form.mood = .foodie then
      "Slow, food-focused day with cosy spots and local flavors."
    else
      "Relaxed day exploring nice corners of the city."
  activities :=
    [{ time := "10:00"
       title := "Neighbourhood coffee & pastry"
       kind := .coffee
       description := "Start the day with a good coffee and something sweet in a calm place."
       area := some "Central area"
       priceLevel := some form.budget },
     { time := "12:30"
       title := "Lunch at a local spot"
       kind := .food
       description := "Casual restaurant with good reviews and a relaxed atmosphere."
       area := some "Walkable from city centre"
       priceLevel := some form.budget },
     { time := "15:00"
       title := "Afternoon walk & discovery"
       kind := .activity
       description := "Explore one nice neighbourhood, a park, or a viewpoint depending on the weather."
       area := some "Scenic area"
       priceLevel := none },
     { time := "19:30"
       title := "Evening dinner"
       kind := .food
       description := "Comfortable dinner spot that matches your budget and vibe for the evening."
       area := some "Lively street or square"
       priceLevel := some form.budget }]
    ++ (if form.mood = .nightlife then
          [{ time := "22:30"
             title := "Drinks or nightlife option"
             kind := .nightlife
             description := "Optional bar or nightlife suggestion if you feel like staying out."
             area := some "Nightlife area"
             priceLevel := none }]
        else [])

/-- The lighter Sunday day the fallback appends when both days are free. -/
def fallbackSundayDay (form : WeekendFormData) : ItineraryDay where
  label := "Sunday"
  summary := "Slower, softer day with time to recharge."
  activities :=
    [{ time := "10:30"
       title := "Late brunch"
       kind := .food
       description := "Brunch spot with good coffee and something savoury + sweet."
       area := some "Central area"
       priceLevel := some form.budget },
     { time := "13:30"
       title := "Light activity"
       kind := .activity
       description := "Simple activity like a park walk, small museum, or waterfront walk."
       area := some "Calmer part of the city"
       priceLevel := none },
     { time := "16:00"
       title := "End-of-weekend café"
       kind := .coffee
       description := "A final stop to relax before the weekend ends."
       area := some "Easy to reach before going home"
       priceLevel := none }]

/-- The local fallback ("mock") generator: the first day, plus the Sunday
template exactly when `form.days` is `both`. -/
def fallbackItinerary (form : WeekendFormData) : WeekendItinerary where
  city := form.city
  days :=
    [fallbackFirstDay form]
    ++ (if form.days = .both then [fallbackSundayDay form] else [])

/-- Behaviours of the `fetch("/api/weekend-plan", ...)` call as observed by
the orchestration: the call throws; it returns a non-ok status; it returns
ok but `res.json()` throws; it returns ok JSON without an `itinerary`
field; or it returns ok JSON carrying an itinerary. -/
inductive UpstreamFetch where
  | throws
  | notOk (status : Nat)
  | okBodyNotJson
  | okNoItinerary
  | okItinerary (it : WeekendItinerary)

/-- The itinerary the `try` block returns early, when it returns at all:
only the fully successful outcome produces one; a thrown error (from
`fetch` or `res.json()`) is swallowed by the `catch`, and the non-ok and
missing-`itinerary` outcomes fall through. -/
def upstreamItineraryOf : UpstreamFetch → Option WeekendItinerary
  | .okItinerary it => some it
  | .throws => none
  | .notOk _ => none
  | .okBodyNotJson => none
  | .okNoItinerary => none

/-- Whether this upstream behaviour counts as a failure of the generation
pipeline (everything except a successful itinerary). -/
def upstreamFailed (u : UpstreamFetch) : Bool :=
  match upstreamItineraryOf u with
  | some _ => false
  | none => true

/-- The orchestration `generateWeekendItinerary(form)`: return the upstream
itinerary when the attempt fully succeeds, the local fallback otherwise. -/
def generateWeekendItinerary (form : WeekendFormData) (u : UpstreamFetch) : WeekendItinerary :=
  match upstreamItineraryOf u with
  | some it => it
  | none => fallbackItinerary form

/-! ## The HTTP handler

From `handler` in `api/weekend-plan.ts`: the method guard, the body-decode
guard, the `!form || !form.city` guard, then the OpenAI call whose reply is
decoded with `JSON.parse` and echoed back with `JSON.stringify`. -/

/-- The dynamic `body.form` object: `city` may be absent (or empty), the
remaining fields are the form enumerations. -/
structure FormVal where
  city : Option String
  group : GroupType
  mood : MoodType
  budget : BudgetLevel
  days : DaysOption
deriving DecidableEq

/-- The decoded request body: `body?.form`. -/
structure BodyShape where
  form : Option FormVal
deriving DecidableEq

/-- An incoming request: its method, and its body as `req.json()` sees it
(`Except.error` models a body that is not parseable JSON). -/
structure RequestModel where
  method : String
  body : Except Unit BodyShape

/-- An HTTP response: status code and body text. -/
structure HttpResponse where
  status : Nat
  body : String
deriving DecidableEq

/-- The 405 response for a non-POST method. -/
def methodNotAllowedResponse : HttpResponse := ⟨405, "Method Not Allowed"⟩

/-- The 400 response for an unparseable body. -/
def invalidJsonResponse : HttpResponse :=
  ⟨400, stringifyJson (Json.obj [("error", Json.str "Invalid JSON")])⟩

/-- The 400 response for a missing form or missing city. -/
def missingFormResponse : HttpResponse :=
  ⟨400, stringifyJson (Json.obj [("error", Json.str "Missing form data")])⟩

/-- The 500 response when the upstream reply is not JSON. -/
def failedParseResponse : HttpResponse :=
  ⟨500, stringifyJson (Json.obj [("error", Json.str "Failed to parse AI response")])⟩

/-- The 500 response when the upstream call itself throws. -/
def backendErrorResponse : HttpResponse :=
  ⟨500, stringifyJson (Json.obj [("error", Json.str "AI backend error")])⟩

/-- Behaviour of the `client.chat.completions.create` call: it throws, or
it returns a completion whose message content is a string or absent (the
source substitutes the empty-object text for absent content). -/
inductive UpstreamOutcome where
  | throws
  | ok (content : Option String)

/-- The `WeekendFormData` value flowing into the prompt once the guard has
passed (the guard guarantees a present, non-empty city). -/
def toFormData (f : FormVal) : WeekendFormData where
  city := f.city.getD ""
  group := f.group
  mood := f.mood
  budget := f.budget
  days := f.days

/-- The `userInput` block of the prompt payload, from the handler's message
construction: every selection is echoed verbatim, unset fields included. -/
def requestUserInput (form : WeekendFormData) : Json :=
  Json.obj
    [("city", Json.str form.city),
     ("group", Json.str (groupString form.group)),
     ("mood", Json.str (moodString form.mood)),
     ("budget", Json.str (budgetString form.budget)),
     ("days", Json.str (daysString form.days))]

/-- The handler past the guards: call the generator with the prompt built
from `form`; a thrown call becomes the 500 backend error, content that is
not JSON becomes the 500 parse error, and decoded content is echoed back
re-stringified with status 200. -/
def upstreamStage (_form : WeekendFormData) : UpstreamOutcome → HttpResponse
  | .throws => backendErrorResponse
  | .ok content =>
    match parseJson (content.getD "\x7b\x7d") with
    | none => failedParseResponse
    | some j => ⟨200, stringifyJson j⟩

/-- The whole handler: method guard, body-decode guard, the
`!form || !form.city` guard, then the upstream stage. -/
def handler (req : RequestModel) (u : UpstreamOutcome) : HttpResponse :=
  if req.method ≠ "POST" then methodNotAllowedResponse
  else
    match req.body with
    | .error _ => invalidJsonResponse
    | .ok b =>
      match b.form with
      | none => missingFormResponse
      | some f =>
        match f.city with
        | none => missingFormResponse
        | some c =>
          if c = "" then missingFormResponse
          else upstreamStage (toFormData f) u

/-! ## Spec-side observation predicates

Boolean observations used to state the claims; they render phrases of the
specification ("has a nightlife activity", "activities are non-decreasing
in time", "schema-valid") as executable predicates over the embedded data
model. -/

/-- Whether a day contains a nightlife activity. -/
def dayHasNightlife (d : ItineraryDay) : Bool :=
  d.activities.any (fun a =>
    match a.kind with
    | .nightlife => true
    | _ => false)

/-- Whether any day of an itinerary contains a nightlife activity. -/
def itineraryHasNightlife (it : WeekendItinerary) : Bool :=
  it.days.any dayHasNightlife

/-- Lexicographic comparison of two time strings by their characters (the
order JavaScript string comparison gives, and chronological order for
zero-padded 24h times): `a` is at or before `b` when `b` is not below `a`. -/
def timeLe (a b : String) : Bool := !(decide (b.data < a.data))

/-- Whether a list of `HH:MM` strings is non-decreasing. -/
def timesSorted : List String → Bool
  | [] => true
  | a :: rest =>
    match rest with
    | [] => true
    | b :: _ => timeLe a b && timesSorted rest

/-- Whether one day's activities are non-decreasing in time. -/
def daySorted (d : ItineraryDay) : Bool :=
  timesSorted (d.activities.map (fun a => a.time))

/-- Whether every day of an itinerary is time-sorted. -/
def itinerarySorted (it : WeekendItinerary) : Bool :=
  it.days.all daySorted

/-- The structural schema check of the specification: days non-empty and
each day's activities non-empty. -/
def schemaValidItinerary (it : WeekendItinerary) : Bool :=
  !it.days.isEmpty && it.days.all (fun d => !d.activities.isEmpty)

/-- Look a key up in a field list (first match wins, as `JSON.parse` keeps
the first occurrence's position for duplicate-free objects). -/
def jsonFieldLookup (fields : List (String × Json)) (key : String) : Option Json :=
  match fields with
  | [] => none
  | (k, v) :: rest => if k = key then some v else jsonFieldLookup rest key

/-- Field of a JSON object, `none` on non-objects. -/
def jsonObjField (j : Json) (key : String) : Option Json :=
  match j with
  | Json.obj fs => jsonFieldLookup fs key
  | _ => none

/-! ## Shared facts and example values -/

/-- The upstream stage only ever answers 500 or 200 — never a 400. -/
theorem upstreamStage_status (form : WeekendFormData) (u : UpstreamOutcome) :
    (upstreamStage form u).status = 500 ∨ (upstreamStage form u).status = 200 := by
  cases u with
  | throws => exact Or.inl rfl
  | ok content =>
    rcases h : parseJson (content.getD "\x7b\x7d") with _ | j
    · exact Or.inl (by simp [upstreamStage, h, failedParseResponse])
    · exact Or.inr (by simp [upstreamStage, h])

/-- The scenario form of the specification: Lisbon, family, nightlife mood,
medium budget, Saturday. -/
def exampleForm : WeekendFormData := ⟨"Lisbon", .family, .nightlife, .medium, .sat⟩

/-- A half-day form. -/
def exampleHalfDayForm : WeekendFormData := ⟨"Porto", .friends, .chill, .low, .halfDay⟩

/-- A form whose optional selections are all at the unset sentinel. -/
def unsetExampleForm : WeekendFormData := ⟨"Lisbon", .unset, .unset, .unset, .unset⟩

/-- A schema-shaped itinerary whose activities are listed out of time order. -/
def unsortedExampleItinerary : WeekendItinerary :=
  ⟨"Lisbon",
   [⟨"Saturday", "Out of order day.",
     [⟨"15:00", "Afternoon walk", .activity, "The later stop listed first.", none, none⟩,
      ⟨"10:00", "Morning coffee", .coffee, "The earlier stop listed second.", none, none⟩]⟩]⟩

/-- A small schema-valid itinerary. -/
def exampleItinerary : WeekendItinerary :=
  ⟨"Lisbon",
   [⟨"Saturday", "A calm day in town.",
     [⟨"10:00", "Neighbourhood coffee", .coffee, "Start slow.", some "Central area", some .medium⟩,
      ⟨"12:30", "Lunch", .food, "Casual lunch.", none, some .medium⟩]⟩]⟩

/-! ## Claim C1 — family excludes nightlife

The claim fails on the code: neither the orchestration nor the fallback
consults `group`. The fallback appends its nightlife slot purely on
`mood = nightlife`, so the specification's own scenario form (family group,
nightlife mood) receives a nightlife activity on the fallback path. -/

/-- Claim C1, counterexample: for the family form with nightlife mood, the
itinerary returned when the upstream call throws contains a nightlife
activity, contradicting the claim at this input. -/
theorem claim1_family_nightlife_counterexample :
    exampleForm.group = GroupType.family ∧
    itineraryHasNightlife (generateWeekendItinerary exampleForm UpstreamFetch.throws) = true :=
  ⟨rfl, rfl⟩

/-- Claim C1, amended: on the fallback path (any failed upstream outcome)
the returned itinerary contains a nightlife activity exactly when
`mood = nightlife`, for every group — family included; `group` plays no
role in the check. -/
theorem claim1_fallback_nightlife_iff_mood (form : WeekendFormData) (u : UpstreamFetch)
    (hu : upstreamFailed u = true) :
    itineraryHasNightlife (generateWeekendItinerary form u) = true
      ↔ form.mood = MoodType.nightlife := by
  have hup : upstreamItineraryOf u = none := by
    cases u with
    | okItinerary it => simp [upstreamFailed, upstreamItineraryOf] at hu
    | throws => rfl
    | notOk s => rfl
    | okBodyNotJson => rfl
    | okNoItinerary => rfl
  simp only [generateWeekendItinerary, hup]
  by_cases hm : form.mood = MoodType.nightlife
  · simp [hm, itineraryHasNightlife, fallbackItinerary, fallbackFirstDay,
      fallbackSundayDay, dayHasNightlife]
  · simp [hm, itineraryHasNightlife, fallbackItinerary, fallbackFirstDay,
      fallbackSundayDay, dayHasNightlife]

/-- Claim C1, witness: the amended theorem applied to a family form with
chill mood and a thrown upstream call. -/
theorem claim1_witness :
    upstreamFailed UpstreamFetch.throws = true ∧
    (itineraryHasNightlife
        (generateWeekendItinerary ⟨"Lisbon", .family, .chill, .medium, .sat⟩
          UpstreamFetch.throws) = true
      ↔ (⟨"Lisbon", .family, .chill, .medium, .sat⟩ : WeekendFormData).mood
          = MoodType.nightlife) :=
  ⟨rfl, claim1_fallback_nightlife_iff_mood _ _ rfl⟩

/-! ## Claim C2 — the orchestration never raises and falls back -/

/-- Claim C2: `generateWeekendItinerary` is a total function into
`WeekendItinerary` (so it cannot raise past its boundary); on every failed
upstream behaviour — thrown call, non-ok status, undecodable body, missing
`itinerary` — it returns the local fallback for the same form, and on the
successful behaviour it returns the upstream itinerary. -/
theorem claim2_orchestration_falls_back (form : WeekendFormData) (u : UpstreamFetch) :
    (upstreamFailed u = true →
      generateWeekendItinerary form u = fallbackItinerary form) ∧
    (∀ it, u = UpstreamFetch.okItinerary it → generateWeekendItinerary form u = it) := by
  constructor
  · intro hu
    cases u with
    | okItinerary it => simp [upstreamFailed, upstreamItineraryOf] at hu
    | throws => rfl
    | notOk s => rfl
    | okBodyNotJson => rfl
    | okNoItinerary => rfl
  · rintro it rfl
    rfl

/-- Claim C2, witness: both branches at concrete inputs. -/
theorem claim2_witness :
    upstreamFailed UpstreamFetch.throws = true ∧
    generateWeekendItinerary exampleForm UpstreamFetch.throws = fallbackItinerary exampleForm ∧
    generateWeekendItinerary exampleForm (UpstreamFetch.okItinerary exampleItinerary)
      = exampleItinerary :=
  ⟨rfl, (claim2_orchestration_falls_back exampleForm UpstreamFetch.throws).1 rfl,
    (claim2_orchestration_falls_back exampleForm _).2 exampleItinerary rfl⟩

/-! ## Claim C3 — day counts and activity-count policy

The day counts hold on the fallback path, but the claim fails in two ways:
a successful upstream outcome is returned without any count check, and the
fallback gives a half-day form the full four-activity (or five-activity)
template, outside the claimed 2–3 half-day bound. -/

/-- Claim C3, counterexample: a half-day form on the fallback path receives
one day of four activities — not within the claimed half-day bound of 2–3. -/
theorem claim3_halfday_counterexample :
    exampleHalfDayForm.days = DaysOption.halfDay ∧
    (generateWeekendItinerary exampleHalfDayForm UpstreamFetch.throws).days.map
        (fun d => d.activities.length) = [4] ∧
    ¬ (4 ≤ 3) :=
  ⟨rfl, rfl, by omega⟩

/-- Claim C3, amended: on the fallback path the day count matches the days
policy (`both` gives two days, anything else one), and every day carries
3–5 activities — the half-day template included, whose 2–3 bound the code
does not honour. -/
theorem claim3_fallback_day_counts (form : WeekendFormData) (u : UpstreamFetch)
    (hu : upstreamFailed u = true) :
    ((generateWeekendItinerary form u).days.length
        = if form.days = DaysOption.both then 2 else 1) ∧
    (∀ d ∈ (generateWeekendItinerary form u).days,
        3 ≤ d.activities.length ∧ d.activities.length ≤ 5) := by
  have hup : upstreamItineraryOf u = none := by
    cases u with
    | okItinerary it => simp [upstreamFailed, upstreamItineraryOf] at hu
    | throws => rfl
    | notOk s => rfl
    | okBodyNotJson => rfl
    | okNoItinerary => rfl
  simp only [generateWeekendItinerary, hup]
  constructor
  · by_cases hb : form.days = DaysOption.both <;> simp [fallbackItinerary, hb]
  · intro d hd
    by_cases hb : form.days = DaysOption.both
    · simp [fallbackItinerary, hb] at hd
      rcases hd with rfl | rfl
      · by_cases hm : form.mood = MoodType.nightlife <;> simp [fallbackFirstDay, hm]
      · simp [fallbackSundayDay]
    · simp [fallbackItinerary, hb] at hd
      subst hd
      by_cases hm : form.mood = MoodType.nightlife <;> simp [fallbackFirstDay, hm]

/-- Claim C3, witness: the amended theorem at the half-day form with a
thrown upstream call. -/
theorem claim3_witness :
    upstreamFailed UpstreamFetch.throws = true ∧
    ((generateWeekendItinerary exampleHalfDayForm UpstreamFetch.throws).days.length
        = if exampleHalfDayForm.days = DaysOption.both then 2 else 1) ∧
    (∀ d ∈ (generateWeekendItinerary exampleHalfDayForm UpstreamFetch.throws).days,
        3 ≤ d.activities.length ∧ d.activities.length ≤ 5) :=
  ⟨rfl, (claim3_fallback_day_counts exampleHalfDayForm UpstreamFetch.throws rfl).1,
    (claim3_fallback_day_counts exampleHalfDayForm UpstreamFetch.throws rfl).2⟩

/-! ## Claim C4 — time-sortedness and the re-sort repair

The handler's response path performs no ordering check and no repair: a
decoded payload is echoed back exactly as decoded, so an out-of-order
upstream itinerary is returned as a success with its order preserved. -/

/-- Claim C4, counterexample: an upstream payload whose activities are out
of time order is returned by the validator as a 200 success, byte for byte
the same serialized payload — it is neither re-sorted nor rejected. -/
theorem claim4_unsorted_counterexample :
    upstreamStage exampleForm
        (UpstreamOutcome.ok
          (some (stringifyJson (encodeWeekendPlanResponse unsortedExampleItinerary))))
      = ⟨200, stringifyJson (encodeWeekendPlanResponse unsortedExampleItinerary)⟩ ∧
    itinerarySorted unsortedExampleItinerary = false := by
  constructor
  · have h := parseJson_stringifyJson (encodeWeekendPlanResponse unsortedExampleItinerary)
    simp [upstreamStage, h]
  · rfl

/-- Claim C4, amended: the validator is a pure pass-through — every
decodable payload, time-sorted or not, is returned unchanged (hence with
the upstream activity order preserved); no re-sort repair exists. -/
theorem claim4_validator_is_passthrough (form : WeekendFormData) (it : WeekendItinerary) :
    upstreamStage form
        (UpstreamOutcome.ok (some (stringifyJson (encodeWeekendPlanResponse it))))
      = ⟨200, stringifyJson (encodeWeekendPlanResponse it)⟩ := by
  have h := parseJson_stringifyJson (encodeWeekendPlanResponse it)
  simp [upstreamStage, h]

/-! ## Claim C5 — two typed validation errors

Only the first half of the claim holds. Undecodable upstream text does give
the dedicated decode failure (`500 Failed to parse AI response`, the
`Malformed` analogue). But there is no structural check at all: any
successfully decoded object — whatever its shape — is echoed back as a 200
success, so no `SchemaMismatch` outcome exists. -/

/-- Claim C5, counterexample: the empty object decodes successfully,
violates the itinerary shape (it has no `days` at all), and is nonetheless
returned as a 200 success rather than any error status. -/
theorem claim5_schema_counterexample :
    upstreamStage exampleForm (UpstreamOutcome.ok (some (stringifyJson (Json.obj []))))
      = ⟨200, stringifyJson (Json.obj [])⟩ ∧
    (200 : Nat) ≠ 400 ∧ (200 : Nat) ≠ 500 :=
  ⟨rfl, by decide, by decide⟩

/-- Claim C5, amended: upstream text that does not decode as JSON yields
the decode-failure error response, and every successfully decoded value is
returned as a 200 success — the validator distinguishes only these two
outcomes and has no schema-mismatch error. -/
theorem claim5_decode_outcomes (form : WeekendFormData) (raw : String) :
    (parseJson raw = none →
      upstreamStage form (UpstreamOutcome.ok (some raw)) = failedParseResponse) ∧
    (∀ j, parseJson raw = some j →
      upstreamStage form (UpstreamOutcome.ok (some raw)) = ⟨200, stringifyJson j⟩) := by
  constructor
  · intro h
    simp [upstreamStage, h]
  · intro j h
    simp [upstreamStage, h]

/-- Claim C5, witness: both outcomes at concrete inputs — the
specification's own `"not json"` sample, and a decoded object. -/
theorem claim5_witness :
    parseJson "not json" = none ∧
    upstreamStage exampleForm (UpstreamOutcome.ok (some "not json")) = failedParseResponse ∧
    parseJson (stringifyJson (Json.obj [("itinerary", Json.str "x")]))
      = some (Json.obj [("itinerary", Json.str "x")]) ∧
    upstreamStage exampleForm
        (UpstreamOutcome.ok (some (stringifyJson (Json.obj [("itinerary", Json.str "x")]))))
      = ⟨200, stringifyJson (Json.obj [("itinerary", Json.str "x")])⟩ :=
  ⟨rfl, (claim5_decode_outcomes exampleForm "not json").1 rfl, rfl,
    (claim5_decode_outcomes exampleForm _).2 _ rfl⟩

/-! ## Claim C6 — endpoint guard responses -/

/-- Claim C6: a non-POST method yields 405; an unparseable body yields the
400 invalid-JSON response; a body whose form is absent, or whose city is
absent or the empty string, yields the 400 missing-form response (bodies
spelled out literally). -/
theorem claim6_endpoint_guards (req : RequestModel) (u : UpstreamOutcome) :
    (req.method ≠ "POST" → handler req u = ⟨405, "Method Not Allowed"⟩) ∧
    (req.method = "POST" → req.body = Except.error () →
      handler req u = ⟨400, "\x7b\"error\":\"Invalid JSON\"\x7d"⟩) ∧
    (∀ b, req.method = "POST" → req.body = Except.ok b →
      (b.form = none ∨ ∃ f, b.form = some f ∧ (f.city = none ∨ f.city = some "")) →
      handler req u = ⟨400, "\x7b\"error\":\"Missing form data\"\x7d"⟩) := by
  refine ⟨?_, ?_, ?_⟩
  · intro h
    simp [handler, h, methodNotAllowedResponse]
  · intro h hb
    have hred : handler req u = invalidJsonResponse := by simp [handler, h, hb]
    rw [hred]
    rfl
  · intro b h hb hf
    have hred : handler req u = missingFormResponse := by
      rcases hf with hnone | ⟨f, hsome, hc⟩
      · simp [handler, h, hb, hnone]
      · rcases hc with hcn | hce
        · simp [handler, h, hb, hsome, hcn]
        · simp [handler, h, hb, hsome, hce]
    rw [hred]
    rfl

/-- Claim C6, witness: the three guard outcomes at concrete requests. -/
theorem claim6_witness :
    handler ⟨"GET", Except.ok ⟨none⟩⟩ UpstreamOutcome.throws = ⟨405, "Method Not Allowed"⟩ ∧
    handler ⟨"POST", Except.error ()⟩ UpstreamOutcome.throws
      = ⟨400, "\x7b\"error\":\"Invalid JSON\"\x7d"⟩ ∧
    handler ⟨"POST", Except.ok ⟨some ⟨some "", .unset, .unset, .unset, .unset⟩⟩⟩
        UpstreamOutcome.throws
      = ⟨400, "\x7b\"error\":\"Missing form data\"\x7d"⟩ :=
  ⟨(claim6_endpoint_guards _ _).1 (by decide),
    (claim6_endpoint_guards _ _).2.1 rfl rfl,
    (claim6_endpoint_guards _ _).2.2 _ rfl rfl (Or.inr ⟨_, rfl, Or.inr rfl⟩)⟩

/-! ## Claim C7 — the fallback template -/

/-- Claim C7: the fallback is a total (hence always-succeeding,
deterministic) function of the form. Its primary day is the fixed
coffee → lunch → walk → dinner template with one nightlife slot appended
exactly when `mood = nightlife`; a second, lighter Sunday day is appended
exactly when `days = both`. -/
theorem claim7_fallback_template (form : WeekendFormData) :
    ((fallbackItinerary form).days.head?.map (fun d => d.activities.map (fun a => a.kind))
      = some ([ActivityKind.coffee, .food, .activity, .food]
            ++ (if form.mood = MoodType.nightlife then [ActivityKind.nightlife] else []))) ∧
    ((fallbackItinerary form).days.length = if form.days = DaysOption.both then 2 else 1) ∧
    (((fallbackItinerary form).days.drop 1).map
        (fun d => (d.label, d.activities.map (fun a => a.kind)))
      = if form.days = DaysOption.both
          then [("Sunday", [ActivityKind.food, .activity, .coffee])] else []) := by
  refine ⟨?_, ?_, ?_⟩
  · by_cases hm : form.mood = MoodType.nightlife <;>
      simp [fallbackItinerary, fallbackFirstDay, hm]
  · by_cases hb : form.days = DaysOption.both <;> simp [fallbackItinerary, hb]
  · by_cases hb : form.days = DaysOption.both <;>
      simp [fallbackItinerary, fallbackSundayDay, hb]

/-! ## Claim C8 — the request builder and unset defaults

The builder echoes the form verbatim into the prompt's `userInput` block;
an unset field is sent as the empty-string sentinel, and no default
(medium budget, neutral-adult group, chill-and-explore mood) is ever
substituted. -/

/-- Claim C8, counterexample: with every optional field unset, the built
`userInput` carries the sentinel `""` for group, mood, budget and days —
in particular the budget field is not the documented medium default. -/
theorem claim8_echoes_sentinel_counterexample :
    requestUserInput unsetExampleForm
      = Json.obj
          [("city", Json.str "Lisbon"), ("group", Json.str ""), ("mood", Json.str ""),
           ("budget", Json.str ""), ("days", Json.str "")] ∧
    ("" : String) ≠ "€€" :=
  ⟨rfl, by decide⟩

/-- Claim C8, amended: the builder is a pure function of the form and
echoes every field verbatim — city as given, and each selection's own
string (the sentinel included) — substituting no defaults. -/
theorem claim8_builder_echoes_fields (form : WeekendFormData) :
    jsonObjField (requestUserInput form) "city" = some (Json.str form.city) ∧
    jsonObjField (requestUserInput form) "group" = some (Json.str (groupString form.group)) ∧
    jsonObjField (requestUserInput form) "mood" = some (Json.str (moodString form.mood)) ∧
    jsonObjField (requestUserInput form) "budget"
      = some (Json.str (budgetString form.budget)) ∧
    jsonObjField (requestUserInput form) "days" = some (Json.str (daysString form.days)) :=
  ⟨rfl, rfl, rfl, rfl, rfl⟩

/-! ## Claim C9 — the serialization round-trip -/

/-- Claim C9: serializing a schema-valid itinerary (wrapped the way the
program transmits it) and running the validator's parse on the text gives
back exactly the serialized value — the decoded object is structurally
identical to the original. -/
theorem claim9_parse_serialize_roundtrip (it : WeekendItinerary)
    (_hvalid : schemaValidItinerary it = true) :
    parseJson (stringifyJson (encodeWeekendPlanResponse it))
      = some (encodeWeekendPlanResponse it) :=
  parseJson_stringifyJson (encodeWeekendPlanResponse it)

/-- Claim C9, witness: the round-trip at a concrete schema-valid itinerary. -/
theorem claim9_witness :
    schemaValidItinerary exampleItinerary = true ∧
    parseJson (stringifyJson (encodeWeekendPlanResponse exampleItinerary))
      = some (encodeWeekendPlanResponse exampleItinerary) :=
  ⟨rfl, claim9_parse_serialize_roundtrip exampleItinerary rfl⟩

/-! ## Claim C10 — exactness of the form guard -/

/-- Claim C10: on a POST with a decodable body, the handler answers the
missing-form response exactly when the form is absent or its city is absent
or empty; any other body — whitespace-only cities included, nothing is
trimmed — proceeds to the generation stage with that form. -/
theorem claim10_guard_exactness (b : BodyShape) (u : UpstreamOutcome) :
    (handler ⟨"POST", Except.ok b⟩ u = missingFormResponse
      ↔ (b.form = none ∨ ∃ f, b.form = some f ∧ (f.city = none ∨ f.city = some ""))) ∧
    (∀ f c, b.form = some f → f.city = some c → c ≠ "" →
      handler ⟨"POST", Except.ok b⟩ u = upstreamStage (toFormData f) u) := by
  constructor
  · constructor
    · intro h
      rcases hb : b.form with _ | f
      · exact Or.inl rfl
      · rcases hc : f.city with _ | c
        · exact Or.inr ⟨f, rfl, Or.inl hc⟩
        · by_cases hce : c = ""
          · exact Or.inr ⟨f, rfl, Or.inr (by rw [← hce]; exact hc)⟩
          · exfalso
            simp [handler, hb, hc, hce] at h
            have hs := upstreamStage_status (toFormData f) u
            rw [h] at hs
            exact absurd hs (by decide)
    · intro h
      rcases h with hnone | ⟨f, hsome, hc⟩
      · simp [handler, hnone]
      · rcases hc with hcn | hce
        · simp [handler, hsome, hcn]
        · simp [handler, hsome, hce]
  · intro f c hf hc hne
    simp [handler, hf, hc, hne]

/-- Claim C10, witness: a whitespace-only city passes the guard and reaches
the generation stage; an absent form is rejected. -/
theorem claim10_witness :
    handler ⟨"POST", Except.ok ⟨some ⟨some " ", .unset, .unset, .unset, .unset⟩⟩⟩
        UpstreamOutcome.throws
      = upstreamStage (toFormData ⟨some " ", .unset, .unset, .unset, .unset⟩)
          UpstreamOutcome.throws ∧
    handler ⟨"POST", Except.ok ⟨none⟩⟩ UpstreamOutcome.throws = missingFormResponse :=
  ⟨(claim10_guard_exactness _ _).2 _ " " rfl rfl (by decide),
    ((claim10_guard_exactness _ _).1).mpr (Or.inl rfl)⟩

end ThisWeekend
